import Mathlib

/-!
Verification of the tvfamily core layer (src/tvfamily/core.py) against its
natural-language specification.  The Python classes are shallowly embedded:
dictionaries become association lists, sets become lists with membership
semantics, the external name parser (tvfamily.PTN.parse) is modelled by the
record of fields it produces, network calls are modelled by passing the
response of the external service as an explicit argument, and file input and
output is modelled by a small JSON value type.
-/

/-- Record of the fields produced by the external name parser
(tvfamily.PTN.parse) for a torrent name.  The parser is an external black box;
a missing dictionary key is modelled by an Option field being none, and the
boolean key "3d" (read in the source with get("3d", False)) is modelled by a
Bool that is false when the key is absent. -/
structure NameInfo where
  title : String
  year : Option Nat := none
  season : Option Nat := none
  episode : Option Nat := none
  quality : Option String := none
  codec : Option String := none
  resolution : Option String := none
  is3d : Bool := false
deriving DecidableEq, Repr

/-- Embedding of tvfamily.torrent.Torrent: a torrent listing with its parsed
name information (self.name_info = tvfamily.PTN.parse(self.name) in the
source; here the parse result is carried as a field because the parser is an
external collaborator). -/
structure Torrent where
  name : String
  magnet : Option String := none
  size : Nat := 0
  seeders : Nat := 0
  leechers : Nat := 0
  name_info : NameInfo
deriving DecidableEq, Repr

/-- Lowercasing of a string, character by character (the model of the Python
str.lower method). -/
def strLower (s : String) : String :=
  ⟨s.data.map Char.toLower⟩

/-- Embedding of TitlesDB._get_torrent_key (core.py lines 516-522): the key is
the lowercased parsed title, suffixed with "." and the year when the parsed
name has a year. -/
def TitlesDB.get_torrent_key (t : Torrent) : String :=
  let k := strLower t.name_info.title
  match t.name_info.year with
  | some y => k ++ "." ++ toString y
  | none => k

/-- Insertion into a Python dictionary modelled as an association list:
replace the value when the key is already bound, otherwise append the new
binding at the end (CPython dictionaries preserve insertion order). -/
def dictInsert (d : List (String × String)) (k v : String) :
    List (String × String) :=
  match d with
  | [] => [(k, v)]
  | (k', v') :: rest =>
      if k' = k then (k, v) :: rest else (k', v') :: dictInsert rest k v

/-- Addition to a Python set modelled as a duplicate-free list: adding an
element already present leaves the set unchanged. -/
def setAdd (s : List String) (k : String) : List String :=
  if k ∈ s then s else s ++ [k]

/-- Mutable state of TitlesDB relevant to torrent resolution: the positive
map _torrents_to_imdb (torrent key to IMDB id) and the not-found set
_titles_not_found. -/
structure TitlesDBState where
  torrents_to_imdb : List (String × String)
  titles_not_found : List String
deriving DecidableEq, Repr

/-- Result item returned by the external metadata search
(tvfamily.imdb.search); only the id is relevant to the cache logic. -/
structure SearchResult where
  id : String
deriving DecidableEq, Repr

/-- Embedding of TitlesDB._get_title_from_torrent (core.py lines 454-475).
The metadata service is external, so the response its search call would give
is passed as the argument search.  The return value is the resolved IMDB id
(modelling the IMDBTitle the source builds, which is determined by its id),
the new cache state, and the number of metadata-service queries issued by
this call (1 exactly when the source reaches the await of
tvfamily.imdb.search, 0 otherwise). -/
def TitlesDB.get_title_from_torrent (st : TitlesDBState) (t : Torrent)
    (search : List SearchResult) : Option String × TitlesDBState × Nat :=
  let key := TitlesDB.get_torrent_key t
  match st.torrents_to_imdb.lookup key with
  | some imdb_id => (some imdb_id, st, 0)
  | none =>
      if key ∈ st.titles_not_found then
        (none, st, 0)
      else
        match search with
        | [] =>
            (none,
             { st with titles_not_found := setAdd st.titles_not_found key },
             1)
        | r :: _ =>
            (some r.id,
             { st with torrents_to_imdb := dictInsert st.torrents_to_imdb key r.id },
             1)

/-- State reached from st after one resolution of torrent t when the
metadata service would answer with search. -/
def TitlesDB.resolveStep (st : TitlesDBState)
    (op : Torrent × List SearchResult) : TitlesDBState :=
  (TitlesDB.get_title_from_torrent st op.1 op.2).2.1

/-- Invariant of the resolution cache: no key is simultaneously bound in the
positive map and present in the not-found set. -/
def TitlesDB.DisjointCache (st : TitlesDBState) : Prop :=
  ∀ k, st.torrents_to_imdb.lookup k ≠ none → k ∉ st.titles_not_found

/-- Minimal JSON value type used to model the json.dumps and json.loads layer
of the cache files (the two cache files only ever hold an object of string
fields and an array of strings). -/
inductive Json where
  | str (s : String)
  | arr (items : List Json)
  | obj (fields : List (String × Json))
deriving Repr

/-- Embedding of TitlesDB._save_torrents_to_imdb (core.py lines 511-514):
json.dumps of the positive map, modelled up to the JSON value it writes. -/
def TitlesDB.save_torrents_to_imdb (d : List (String × String)) : Json :=
  .obj (d.map (fun p => (p.1, .str p.2)))

/-- Reading of a JSON object field list as a string-to-string dictionary. -/
def readStringFields : List (String × Json) → Option (List (String × String))
  | [] => some []
  | (k, .str v) :: rest =>
      match readStringFields rest with
      | some l => some ((k, v) :: l)
      | none => none
  | _ => none

/-- Embedding of TitlesDB._load_torrents_to_imdb (core.py lines 501-509):
json.loads of the file content, modelled on the JSON value read; a value that
is not an object of strings has no dictionary reading. -/
def TitlesDB.load_torrents_to_imdb (j : Json) :
    Option (List (String × String)) :=
  match j with
  | .obj fields => readStringFields fields
  | _ => none

/-- Embedding of TitlesDB._save_titles_not_found (core.py lines 554-557):
json.dumps(list(set)) of the not-found set. -/
def TitlesDB.save_titles_not_found (s : List String) : Json :=
  .arr (s.map .str)

/-- Reading of a JSON array as a list of strings. -/
def readStringItems : List Json → Option (List String)
  | [] => some []
  | .str s :: rest =>
      match readStringItems rest with
      | some l => some (s :: l)
      | none => none
  | _ => none

/-- Embedding of TitlesDB._load_titles_not_found (core.py lines 546-552):
set(json.loads(file content)), modelled on the JSON value read. -/
def TitlesDB.load_titles_not_found (j : Json) : Option (List String) :=
  match j with
  | .arr items => readStringItems items
  | _ => none

/-- Handle of a loaded provider plugin: a module bound to a plugin name.  The
modId field stands for the module object identity, so that two loads of the
same file can be told apart. -/
structure Plugin where
  name : String
  modId : Nat
deriving DecidableEq, Repr

/-- Two-cursor walk of TorrentEngine._reload_plugins (core.py lines
1007-1026) over the sorted list of plugin file basenames and the previously
loaded plugin list (whose name list, with the sentinel "~" appended, is the
plugins_names list of the source).  The empty-previous case is the cursor
sitting on the sentinel: a basename below "~" is loaded fresh; a basename not
below the sentinel would make the source walk past the end of the list (the
directory filter excludes names starting with "~", so this cannot happen for
filtered listings, and the theorems assume it away). -/
def TorrentEngine.mergeWalk (load : String → Plugin) :
    List String → List Plugin → List Plugin
  | [], _ => []
  | f :: fs, p :: ps =>
      if f = p.name then p :: TorrentEngine.mergeWalk load fs ps
      else if f < p.name then
        load f :: TorrentEngine.mergeWalk load fs (p :: ps)
      else TorrentEngine.mergeWalk load (f :: fs) ps
  | f :: fs, [] =>
      if f < "~" then load f :: TorrentEngine.mergeWalk load fs []
      else []
termination_by fs ps => fs.length + ps.length

/-- Embedding of TorrentEngine._reload_plugins (core.py lines 992-1033).  The
directory listing, the ".py" and leading "~" filter, the sort, and the
extension stripping are modelled by passing the sorted list of plugin
basenames; a listing of none models os.listdir raising IOError.  In the
source, the local variable plugins is initialised to the empty list before
the listing; when the listing raises, the except clause only logs, and the
final statement self._plugins = plugins still runs, so the loaded list
becomes empty. -/
def TorrentEngine.reload_plugins (load : String → Plugin)
    (prev : List Plugin) (listing : Option (List String)) : List Plugin :=
  match listing with
  | none => []
  | some files => TorrentEngine.mergeWalk load files prev

/-- Case-insensitive prefix test: models re.match of a literal alternative
under re.IGNORECASE (re.match anchors at the start of the string only); the
pattern literals below are written lowercased already. -/
def startsWithCI (s pat : String) : Bool :=
  pat.data.isPrefixOf (strLower s).data

/-- Matcher for the quality pattern (?:HD)?CAM|CamRip with re.I. -/
def reCam (s : String) : Bool :=
  startsWithCI s "hdcam" || startsWithCI s "cam" || startsWithCI s "camrip"

/-- Matcher for the quality pattern (?:HD-?)?TS|telesync with re.I. -/
def reTelesync (s : String) : Bool :=
  startsWithCI s "hdts" || startsWithCI s "hd-ts" || startsWithCI s "ts"
    || startsWithCI s "telesync"

/-- Matcher for the quality pattern (?:HD-?)?TC|telecine with re.I. -/
def reTelecine (s : String) : Bool :=
  startsWithCI s "hdtc" || startsWithCI s "hd-tc" || startsWithCI s "tc"
    || startsWithCI s "telecine"

/-- Matcher for the quality pattern DvDScr with re.I. -/
def reScreener (s : String) : Bool :=
  startsWithCI s "dvdscr"

/-- Matcher for the quality pattern DVDRip|DVDRIP with re.I. -/
def reDvdrip (s : String) : Bool :=
  startsWithCI s "dvdrip"

/-- Matcher for the quality pattern (?:PPV\.)?[HP]DTV|hdtv with re.I. -/
def reHdtv (s : String) : Bool :=
  startsWithCI s "ppv.hdtv" || startsWithCI s "ppv.pdtv"
    || startsWithCI s "hdtv" || startsWithCI s "pdtv"

/-- Matcher for the quality pattern (?:PPV )?WEB-?DL(?: DVDRip)?|HDRip with
re.I; the optional trailing group never affects an unanchored prefix match. -/
def reWebdl (s : String) : Bool :=
  startsWithCI s "ppv webdl" || startsWithCI s "ppv web-dl"
    || startsWithCI s "webdl" || startsWithCI s "web-dl"
    || startsWithCI s "hdrip"

/-- Matcher for the quality pattern W[EB]BRip with re.I (the source spells
the character class this way, so it accepts WEBRip and WBBRip). -/
def reWebrip (s : String) : Bool :=
  startsWithCI s "webrip" || startsWithCI s "wbbrip"

/-- Matcher for the quality pattern B[DR]Rip|BluRay with re.I. -/
def reBluray (s : String) : Bool :=
  startsWithCI s "bdrip" || startsWithCI s "brrip" || startsWithCI s "bluray"

/-- Matcher for the codec pattern xvid with re.I. -/
def reXvid (s : String) : Bool :=
  startsWithCI s "xvid"

/-- Matcher for the codec pattern [hx]\.?264 with re.I. -/
def reH264 (s : String) : Bool :=
  startsWithCI s "h264" || startsWithCI s "h.264"
    || startsWithCI s "x264" || startsWithCI s "x.264"

/-- Matcher for the codec pattern [hx]\.?265 with re.I. -/
def reH265 (s : String) : Bool :=
  startsWithCI s "h265" || startsWithCI s "h.265"
    || startsWithCI s "x265" || startsWithCI s "x.265"

/-- Matcher for the resolution pattern 720p with re.I. -/
def re720p (s : String) : Bool :=
  startsWithCI s "720p"

/-- Matcher for the resolution pattern 1080p with re.I. -/
def re1080p (s : String) : Bool :=
  startsWithCI s "1080p"

/-- Embedding of TorrentEngine._FILTER_QUALITY (core.py line 908): the
dictionary from quality value to its compiled pattern. -/
def TorrentEngine.FILTER_QUALITY : List (String × (String → Bool)) :=
  [("Cam", reCam), ("Telesync", reTelesync), ("Telecine", reTelecine),
   ("Screener", reScreener), ("DVD-Rip", reDvdrip), ("HDTV", reHdtv),
   ("WEB-DL", reWebdl), ("WEBRip", reWebrip), ("Blu-ray", reBluray)]

/-- Embedding of TorrentEngine._FILTER_CODEC (core.py line 909). -/
def TorrentEngine.FILTER_CODEC : List (String × (String → Bool)) :=
  [("XviD", reXvid), ("H.264", reH264), ("H.265", reH265)]

/-- Embedding of TorrentEngine._FILTER_RESOLUTION (core.py line 910). -/
def TorrentEngine.FILTER_RESOLUTION : List (String × (String → Bool)) :=
  [("720p", re720p), ("1080p", re1080p)]

/-- Lookup of dictionary[f] in a filter dictionary.  In the source an unknown
filter value raises KeyError; the source only reaches this lookup when the
attribute value is present, and here an unknown filter value is modelled as a
pattern that matches nothing. -/
def lookupMatcher (d : List (String × (String → Bool))) (f : String) :
    String → Bool :=
  match d.lookup f with
  | some m => m
  | none => fun _ => false

/-- Test applied to one torrent by the loop body of
TorrentEngine._filter_from_attr (core.py lines 966-972): the torrent is
appended exactly when some accepted value f of the filter list causes the
break, i.e. the attribute value is absent (the check short-circuits before
the dictionary lookup) or the pattern of f matches it. -/
def attrPass (fl : List String) (d : List (String × (String → Bool)))
    (v : Option String) : Bool :=
  fl.any (fun f =>
    match v with
    | none => true
    | some s => lookupMatcher d f s)

/-- Embedding of TorrentEngine._filter_from_attr (core.py lines 961-973):
with an absent filter component the list is returned unchanged; otherwise the
append-on-break loop keeps, in order, the torrents passing attrPass. -/
def TorrentEngine.filter_from_attr (torrents : List Torrent)
    (fl : Option (List String)) (attr : Torrent → Option String)
    (d : List (String × (String → Bool))) : List Torrent :=
  match fl with
  | none => torrents
  | some fl => torrents.filter (fun t => attrPass fl d (attr t))

/-- Filter tuple of TorrentEngine._filter: quality, codec, resolution and 3D
components, each itself optional. -/
def FilterTuple :=
  Option (List String) × Option (List String) × Option (List String)
    × Option (List String)

/-- Embedding of TorrentEngine._filter (core.py lines 944-959). -/
def TorrentEngine.filterTorrents (torrents : List Torrent)
    (filters : Option FilterTuple) : List Torrent :=
  match filters with
  | none => torrents
  | some (quality, codec, resolution, td) =>
      let l := TorrentEngine.filter_from_attr torrents quality
        (fun t => t.name_info.quality) TorrentEngine.FILTER_QUALITY
      let l := TorrentEngine.filter_from_attr l codec
        (fun t => t.name_info.codec) TorrentEngine.FILTER_CODEC
      let l := TorrentEngine.filter_from_attr l resolution
        (fun t => t.name_info.resolution) TorrentEngine.FILTER_RESOLUTION
      l.filter (fun t =>
        match td with
        | none => true
        | some vs => !t.name_info.is3d || vs.contains "3D")

/-- Insertion step of the stable descending sort by seeders.  A torrent is
placed before the first element whose seeder count does not exceed it, so
among equal seeder counts earlier input elements stay first. -/
def insertSeeders (t : Torrent) : List Torrent → List Torrent
  | [] => [t]
  | x :: xs =>
      if x.seeders ≤ t.seeders then t :: x :: xs
      else x :: insertSeeders t xs

/-- Functional model of sorted(l, key=lambda x: x.seeders, reverse=True)
(core.py lines 934-935): the Python built-in sort is stable, and with
reverse=True elements with equal keys keep their original order, so it
computes exactly the stable descending reordering, here realised by
insertion. -/
def sortBySeedersDesc : List Torrent → List Torrent
  | [] => []
  | t :: ts => insertSeeders t (sortBySeedersDesc ts)

/-- Embedding of TorrentEngine._plugin_method_wrapper (core.py lines
1035-1045): the outcome of one provider call, either a result list or a
raised exception carried as a message, is turned into an optional list; an
exception is logged and becomes none, and never propagates. -/
def TorrentEngine.plugin_method_wrapper
    (outcome : Except String (List Torrent)) : Option (List Torrent) :=
  match outcome with
  | .ok l => some l
  | .error _ => none

/-- Merge step of TorrentEngine.fetch_top (core.py lines 978-984): each
provider outcome goes through the wrapper and the non-none result lists are
concatenated in provider order. -/
def TorrentEngine.fetch_top_merge
    (outcomes : List (Except String (List Torrent))) : List Torrent :=
  ((outcomes.map TorrentEngine.plugin_method_wrapper).filterMap id).flatten

/-- Embedding of TorrentEngine.top (core.py lines 921-935) after the cached
snapshot file has been read into the list torrents: filter, then stable-sort
descending by seeders. -/
def TorrentEngine.top (torrents : List Torrent)
    (filters : Option FilterTuple) : List Torrent :=
  sortBySeedersDesc (TorrentEngine.filterTorrents torrents filters)

/-- Action observable from one scheduler task: fetching the top list of one
category (and resolving its listings, which fetch_top_torrents cascades). -/
inductive SchedAction where
  | fetchTop (category : String)
deriving DecidableEq, Repr

/-- Embedding of TaskScheduler._fetch_top_torrents (core.py lines 1097-1102):
it launches a fetch (with cascaded per-listing resolution) for every
category. -/
def TaskScheduler.fetch_top_torrents_actions (categories : List String) :
    List SchedAction :=
  categories.map SchedAction.fetchTop

/-- Tasks executed by one iteration of the while loop of TaskScheduler.run
(core.py lines 1083-1095).  In the source the whole task block, including the
call of _fetch_top_torrents and save_databases, is a bare triple-quoted
string literal, that is an expression statement with no effect, so an
iteration performs no task at all. -/
def TaskScheduler.run_iteration_actions : List SchedAction := []

/-- Next-execution instant after one iteration of TaskScheduler.run (core.py
line 1092): next_execution += self.interval, accumulated on the fixed
schedule; instants and the interval are modelled as integers. -/
def TaskScheduler.run_iteration_next (interval next_execution : Int) : Int :=
  next_execution + interval

/-- Next-execution instant after a whole run of iterations whose observed
durations are given (the duration list only drives how many iterations
happen; the accumulation never reads the clock). -/
def TaskScheduler.run_next_after (interval next_execution : Int)
    (durations : List Int) : Int :=
  durations.foldl (fun ne _ => TaskScheduler.run_iteration_next interval ne)
    next_execution

/-- Embedding of the IMDBTitle data relevant to media construction: the id,
the type attribute, and for series the season map (season number to the list
of episode numbers present in the per-title database). -/
structure IMDBTitle where
  id : String
  ttype : String
  seasons : List (Nat × List Nat) := []
deriving DecidableEq, Repr

/-- Media produced by Title.get_media: a Movie media is the Title itself,
compared by catalog id (Title.__eq__, core.py line 687-691); an Episode media
is compared by catalog id, season and episode (Episode.__eq__, core.py lines
799-804). -/
inductive Media where
  | movie (id : String)
  | episode (id : String) (season : Nat) (episode : Nat)
deriving DecidableEq, Repr

/-- Movie type tags (core.py line 832). -/
def Movie.TYPES : List String := ["Movie"]

/-- Embedding of Title.get_media (core.py line 708) through the type variants
(Movie.get_media, core.py lines 837-839, returns the title itself;
TVSerie.get_media, core.py lines 760-769, returns the episode when the parsed
name has season and episode and that episode exists in the season map, and
none on the KeyError path otherwise). -/
def Title.get_media (title : IMDBTitle) (t : Torrent) : Option Media :=
  if title.ttype ∈ Movie.TYPES then some (.movie title.id)
  else
    match t.name_info.season, t.name_info.episode with
    | some s, some e =>
        match title.seasons.lookup s with
        | some eps => if e ∈ eps then some (.episode title.id s e) else none
        | none => none
    | _, _ => none

/-- Embedding of TitlesDB._get_title_from_torrent_cached (core.py lines
424-433): look the torrent key up in the positive map and load the title of
the mapped id from the on-disk store (modelled by the association list
store); any KeyError, from a missing key or a missing title file, gives
none. -/
def TitlesDB.get_title_from_torrent_cached (st : TitlesDBState)
    (store : List (String × IMDBTitle)) (t : Torrent) : Option IMDBTitle :=
  match st.torrents_to_imdb.lookup (TitlesDB.get_torrent_key t) with
  | some imdb_id => store.lookup imdb_id
  | none => none

/-- Media list, before deduplication, built by TitlesDB.get_medias_from_torrents
(core.py lines 405-413): the cached title of each torrent, the pairs whose
title is not none, and the media of each pair. -/
def TitlesDB.mediasOfTorrents (st : TitlesDBState)
    (store : List (String × IMDBTitle)) (torrents : List Torrent) :
    List (Option Media) :=
  let titles := torrents.map (TitlesDB.get_title_from_torrent_cached st store)
  let titles_torrents := (titles.zip torrents).filterMap
    (fun p => p.1.map (fun tit => (tit, p.2)))
  titles_torrents.map (fun p => Title.get_media p.1 p.2)

/-- Step of the deduplication loop of TitlesDB.get_medias_from_torrents for
one non-null media: append it unless already seen (the source keeps a
companion set; membership in the accumulated list is the same test). -/
def dedupeStep (acc : List Media) (m : Media) : List Media :=
  if m ∈ acc then acc else acc ++ [m]

/-- Deduplication loop of TitlesDB.get_medias_from_torrents (core.py lines
414-422): drop the none medias and keep the first occurrence of each media,
in order. -/
def dedupeMedias (medias : List (Option Media)) : List Media :=
  medias.foldl (fun acc m =>
    match m with
    | none => acc
    | some m => dedupeStep acc m) []

/-- Embedding of TitlesDB.get_medias_from_torrents (core.py lines 403-422). -/
def TitlesDB.get_medias_from_torrents (st : TitlesDBState)
    (store : List (String × IMDBTitle)) (torrents : List Torrent) :
    List Media :=
  dedupeMedias (TitlesDB.mediasOfTorrents st store torrents)

/-- Non-null media occurrence list: the medias of the torrent list with the
none entries dropped, duplicates kept, in torrent order. -/
def TitlesDB.collectedMedias (st : TitlesDBState)
    (store : List (String × IMDBTitle)) (torrents : List Torrent) :
    List Media :=
  (TitlesDB.mediasOfTorrents st store torrents).filterMap id

/-- Satisfaction of one attribute filter component by an attribute value: when
the component is present, the value is absent or matched by the pattern of
one of the accepted values. -/
def compOk (comp : Option (List String))
    (d : List (String × (String → Bool))) (v : Option String) : Prop :=
  ∀ fl, comp = some fl →
    v = none ∨ ∃ s, v = some s ∧ ∃ f ∈ fl, lookupMatcher d f s = true

/-- Demo listing whose parsed name has no quality field. -/
def demoNoQuality : Torrent :=
  { name := "Alpha", name_info := { title := "Alpha" } }

/-- Demo listing whose parsed name has quality BluRay. -/
def demoBluray : Torrent :=
  { name := "Beta", name_info := { title := "Beta", quality := some "BluRay" } }

/-- Demo listing whose parsed name has quality WEBRip. -/
def demoWebrip : Torrent :=
  { name := "Gamma", name_info := { title := "Gamma", quality := some "WEBRip" } }

/-- Demo listing with 5 seeders. -/
def demoSeed5 : Torrent :=
  { name := "SeedA", seeders := 5, name_info := { title := "SeedA" } }

/-- Demo listing with 50 seeders. -/
def demoSeed50 : Torrent :=
  { name := "SeedB", seeders := 50, name_info := { title := "SeedB" } }

/-- Demo listing with 1 seeder. -/
def demoSeed1 : Torrent :=
  { name := "SeedC", seeders := 1, name_info := { title := "SeedC" } }

/-- Demo listing whose parsed name has title Foo and no year. -/
def fooTorrent : Torrent :=
  { name := "Foo", name_info := { title := "Foo" } }

/-- Demo listing with parsed title The Matrix and year 1999. -/
def matrixTorrent : Torrent :=
  { name := "The Matrix 1999",
    name_info := { title := "The Matrix", year := some 1999 } }

theorem load_save_obj (d : List (String × String)) :
    readStringFields (d.map (fun p => (p.1, Json.str p.2))) = some d := by
  induction d with
  | nil => rfl
  | cons p rest ih => simp [readStringFields, ih]

theorem load_save_arr (s : List String) :
    readStringItems (s.map Json.str) = some s := by
  induction s with
  | nil => rfl
  | cons x rest ih => simp [readStringItems, ih]

/-- C9: saving the positive map and the not-found set to their files and
loading them back yields structures equal to the originals (same key set,
same mapped values, same set membership). -/
theorem C9_persistence_round_trip (d : List (String × String))
    (nf : List String) :
    TitlesDB.load_torrents_to_imdb (TitlesDB.save_torrents_to_imdb d) = some d
      ∧ TitlesDB.load_titles_not_found (TitlesDB.save_titles_not_found nf)
          = some nf := by
  exact ⟨load_save_obj d, load_save_arr nf⟩

/-- C2: evaluation of the registry reload at a failed directory listing.  The
source initialises the local variable plugins to the empty list before the
listing, the except clause only logs, and the trailing assignment
self._plugins = plugins still runs, so a previously loaded handle set of one
plugin is replaced by the empty set instead of being retained. -/
theorem C2_reload_listing_failure_clears_registry :
    TorrentEngine.reload_plugins (fun n => ⟨n, 100⟩) [⟨"plugin1", 0⟩] none
        = ([] : List Plugin)
      ∧ ([] : List Plugin) ≠ [⟨"plugin1", 0⟩] := by
  exact ⟨rfl, by decide⟩

/-- C8: evaluation of one scheduler iteration.  The task block of
TaskScheduler.run is a bare string literal in the source, so an iteration
triggers no category fetch at all, although TaskScheduler._fetch_top_torrents
would launch one fetch per category; the next-execution instant does advance
by exactly the configured interval per iteration, accumulated on the fixed
schedule independently of the iteration durations. -/
theorem C8_scheduler_iteration_runs_no_tasks :
    TaskScheduler.run_iteration_actions = ([] : List SchedAction)
      ∧ TaskScheduler.run_iteration_actions
          ≠ TaskScheduler.fetch_top_torrents_actions ["Movies", "TV Series"]
      ∧ ∀ (interval ne : Int) (durations : List Int),
          TaskScheduler.run_next_after interval ne durations
            = ne + durations.length * interval := by
  refine ⟨rfl, by decide, ?_⟩
  intro interval ne durations
  induction durations generalizing ne with
  | nil => simp [TaskScheduler.run_next_after]
  | cons dur durs ih =>
      rw [TaskScheduler.run_next_after, List.foldl_cons,
        ← TaskScheduler.run_next_after, ih]
      unfold TaskScheduler.run_iteration_next
      simp only [List.length_cons]
      push_cast
      ring

theorem mem_setAdd {s : List String} {k x : String} :
    x ∈ setAdd s k ↔ x ∈ s ∨ x = k := by
  by_cases hk : k ∈ s
  · rw [setAdd, if_pos hk]
    constructor
    · exact Or.inl
    · rintro (h | rfl)
      · exact h
      · exact hk
  · rw [setAdd, if_neg hk]
    simp

theorem lookup_dictInsert (d : List (String × String)) (k v k' : String) :
    (dictInsert d k v).lookup k' = if k' = k then some v else d.lookup k' := by
  induction d with
  | nil =>
      by_cases h : k' = k
      · simp [dictInsert, List.lookup, h]
      · have hb : (k' == k) = false := beq_eq_false_iff_ne.mpr h
        simp [dictInsert, List.lookup, hb, h]
  | cons p rest ih =>
      obtain ⟨k₀, v₀⟩ := p
      by_cases h₀ : k₀ = k
      · subst h₀
        by_cases h' : k' = k₀
        · simp [dictInsert, List.lookup, h']
        · have hb : (k' == k₀) = false := beq_eq_false_iff_ne.mpr h'
          simp [dictInsert, List.lookup, hb, h']
      · by_cases h' : k' = k₀
        · subst h'
          have hne : ¬ k' = k := h₀
          simp [dictInsert, List.lookup, h₀, hne]
        · have hb : (k' == k₀) = false := beq_eq_false_iff_ne.mpr h'
          simp [dictInsert, List.lookup, h₀, hb, h', ih]

theorem resolveStep_disjoint (st : TitlesDBState)
    (op : Torrent × List SearchResult) (h : TitlesDB.DisjointCache st) :
    TitlesDB.DisjointCache (TitlesDB.resolveStep st op) := by
  obtain ⟨t, search⟩ := op
  unfold TitlesDB.resolveStep TitlesDB.get_title_from_torrent
  simp only
  cases hpos : st.torrents_to_imdb.lookup (TitlesDB.get_torrent_key t) with
  | some imdb_id => exact h
  | none =>
      by_cases hnf : TitlesDB.get_torrent_key t ∈ st.titles_not_found
      · rw [if_pos hnf]
        exact h
      · rw [if_neg hnf]
        cases search with
        | nil =>
            intro k hk hmem
            rw [mem_setAdd] at hmem
            rcases hmem with hmem | rfl
            · exact h k hk hmem
            · exact hk hpos
        | cons r rs =>
            intro k hk hmem
            simp only [lookup_dictInsert] at hk
            by_cases hkk : k = TitlesDB.get_torrent_key t
            · subst hkk
              exact hnf hmem
            · rw [if_neg hkk] at hk
              exact h k hk hmem

/-- C4: starting from a state where no key is simultaneously in the positive
map and the not-found set, no sequence of resolve operations (each with the
metadata answer it would observe) ever produces a state where some key is in
both: a successful resolution records the key only in the positive map and
leaves the not-found set unchanged, and a key is added to the not-found set
only when it is absent from the positive map. -/
theorem C4_positive_map_and_notfound_disjoint
    (ops : List (Torrent × List SearchResult)) (st : TitlesDBState)
    (h : TitlesDB.DisjointCache st) :
    TitlesDB.DisjointCache (ops.foldl TitlesDB.resolveStep st) := by
  induction ops generalizing st with
  | nil => exact h
  | cons op ops ih =>
      rw [List.foldl_cons]
      exact ih _ (resolveStep_disjoint st op h)

/-- C4 witness: the invariant holds after resolving the demo listing The
Matrix (1999) from the empty cache when the metadata search answers with the
single match tt0133093. -/
theorem C4_witness :
    TitlesDB.DisjointCache
      (List.foldl TitlesDB.resolveStep ⟨[], []⟩
        [(matrixTorrent, [⟨"tt0133093"⟩])]) :=
  C4_positive_map_and_notfound_disjoint [(matrixTorrent, [⟨"tt0133093"⟩])]
    ⟨[], []⟩ (fun _ hk => absurd rfl hk)

/-- C3: a torrent whose normalized key is recorded as not found (the source
checks the positive map first, so the key is also unbound there) resolves to
null immediately, with the state unchanged and no metadata-service query; and
resolving the same torrent twice from a state where the key is unknown, when
the first metadata search returns nothing, issues exactly one
metadata-service query across both calls, whatever the second search would
have answered. -/
theorem C3_notfound_memoization :
    (∀ (st : TitlesDBState) (t : Torrent) (search : List SearchResult),
        st.torrents_to_imdb.lookup (TitlesDB.get_torrent_key t) = none →
        TitlesDB.get_torrent_key t ∈ st.titles_not_found →
        TitlesDB.get_title_from_torrent st t search = (none, st, 0))
    ∧ (∀ (st : TitlesDBState) (t : Torrent) (search₂ : List SearchResult),
        st.torrents_to_imdb.lookup (TitlesDB.get_torrent_key t) = none →
        TitlesDB.get_torrent_key t ∉ st.titles_not_found →
        (TitlesDB.get_title_from_torrent st t []).1 = none
        ∧ (TitlesDB.get_title_from_torrent st t []).2.2 = 1
        ∧ TitlesDB.get_title_from_torrent
              (TitlesDB.get_title_from_torrent st t []).2.1 t search₂
            = (none, (TitlesDB.get_title_from_torrent st t []).2.1, 0)) := by
  constructor
  · intro st t search hpos hnf
    unfold TitlesDB.get_title_from_torrent
    simp [hpos, hnf]
  · intro st t search₂ hpos hnf
    have h1 : TitlesDB.get_title_from_torrent st t []
        = (none,
           { st with titles_not_found :=
               setAdd st.titles_not_found (TitlesDB.get_torrent_key t) },
           1) := by
      unfold TitlesDB.get_title_from_torrent
      simp [hpos, hnf]
    refine ⟨by rw [h1], by rw [h1], ?_⟩
    rw [h1]
    unfold TitlesDB.get_title_from_torrent
    simp [hpos, mem_setAdd]

/-- C3 witness: with the key foo cached as not found, resolution returns null
with no query; and two resolutions of the same fresh listing with an empty
first search answer issue one query in total. -/
theorem C3_witness :
    TitlesDB.get_title_from_torrent ⟨[], ["foo"]⟩ fooTorrent [⟨"tt1"⟩]
        = (none, ⟨[], ["foo"]⟩, 0)
      ∧ (TitlesDB.get_title_from_torrent ⟨[], []⟩ fooTorrent []).2.2
          + (TitlesDB.get_title_from_torrent
               (TitlesDB.get_title_from_torrent ⟨[], []⟩ fooTorrent []).2.1
               fooTorrent []).2.2 = 1 := by
  constructor
  · exact C3_notfound_memoization.1 ⟨[], ["foo"]⟩ fooTorrent [⟨"tt1"⟩] rfl
      (by decide)
  · have h := C3_notfound_memoization.2 ⟨[], []⟩ fooTorrent [] rfl (by decide)
    rw [h.2.1, h.2.2]
    rfl

theorem plugin_find_none {f : String} {prev : List Plugin}
    (h : ∀ p ∈ prev, f < p.name) :
    prev.find? (fun p => p.name == f) = none := by
  apply List.find?_eq_none.mpr
  intro p hp
  simp only [beq_iff_eq]
  exact fun he => absurd (he ▸ h p hp) (lt_irrefl f)

theorem mergeWalk_merge_diff (load : String → Plugin) :
    ∀ (files : List String) (prev : List Plugin),
      files.Pairwise (· < ·) →
      (prev.map Plugin.name).Pairwise (· < ·) →
      (∀ f ∈ files, f < "~") →
      TorrentEngine.mergeWalk load files prev
        = files.map (fun f =>
            (prev.find? (fun p => p.name == f)).getD (load f)) := by
  intro files prev
  induction files, prev using TorrentEngine.mergeWalk.induct load with
  | case1 prev =>
      intro _ _ _
      simp [TorrentEngine.mergeWalk]
  | case2 fs p ps ih =>
      intro hf hp hs
      rw [List.pairwise_cons] at hf
      rw [List.map_cons, List.pairwise_cons] at hp
      rw [TorrentEngine.mergeWalk, if_pos rfl, List.map_cons]
      have hhead : (p :: ps).find? (fun q => q.name == p.name) = some p :=
        List.find?_cons_of_pos _ (by simp)
      rw [hhead]
      simp only [Option.getD_some]
      congr 1
      rw [ih hf.2 hp.2 (fun g hg => hs g (List.mem_cons_of_mem _ hg))]
      apply List.map_congr_left
      intro g hg
      have hlt : p.name < g := hf.1 g hg
      have hskip : List.find? (fun q => q.name == g) (p :: ps)
          = List.find? (fun q => q.name == g) ps := by
        apply List.find?_cons_of_neg
        simp only [beq_iff_eq]
        exact fun he => absurd (he ▸ hlt) (lt_irrefl g)
      rw [hskip]
  | case3 f fs p ps hne hlt ih =>
      intro hf hp hs
      rw [List.pairwise_cons] at hf
      rw [TorrentEngine.mergeWalk, if_neg hne, if_pos hlt, List.map_cons]
      have hnone : (p :: ps).find? (fun q => q.name == f) = none := by
        apply plugin_find_none
        intro q hq
        rcases List.mem_cons.mp hq with rfl | hq'
        · exact hlt
        · rw [List.map_cons, List.pairwise_cons] at hp
          exact lt_trans hlt (hp.1 q.name (List.mem_map_of_mem Plugin.name hq'))
      rw [hnone]
      simp only [Option.getD_none]
      congr 1
      exact ih hf.2 hp (fun g hg => hs g (List.mem_cons_of_mem _ hg))
  | case4 f fs p ps hne hnlt ih =>
      intro hf hp hs
      rw [List.pairwise_cons] at hf
      rw [List.map_cons, List.pairwise_cons] at hp
      have hgt : p.name < f := by
        rcases lt_trichotomy f p.name with h | h | h
        · exact absurd h hnlt
        · exact absurd h hne
        · exact h
      rw [TorrentEngine.mergeWalk, if_neg hne, if_neg hnlt]
      rw [ih (List.pairwise_cons.mpr hf) hp.2 hs]
      apply List.map_congr_left
      intro g hg
      have hglt : p.name < g := by
        rcases List.mem_cons.mp hg with rfl | hg'
        · exact hgt
        · exact lt_trans hgt (hf.1 g hg')
      have hskip : List.find? (fun q => q.name == g) (p :: ps)
          = List.find? (fun q => q.name == g) ps := by
        apply List.find?_cons_of_neg
        simp only [beq_iff_eq]
        exact fun he => absurd (he ▸ hglt) (lt_irrefl g)
      rw [hskip]
  | case5 f fs hsent ih =>
      intro hf hp hs
      rw [List.pairwise_cons] at hf
      rw [TorrentEngine.mergeWalk, if_pos hsent, List.map_cons]
      simp only [List.find?_nil, Option.getD_none]
      congr 1
      exact ih hf.2 hp (fun g hg => hs g (List.mem_cons_of_mem _ hg))
  | case6 f fs hnsent =>
      intro _ _ hs
      exact absurd (hs f (List.mem_cons_self f fs)) hnsent

/-- C1: with a readable plugins directory, reload is the identity-preserving
merge-diff: in lexicographic filename order, every name loaded before and
present in the directory keeps its existing handle object, every name only in
the directory gets a freshly loaded handle, and every name whose file is gone
has no handle.  The hypotheses state the registry invariant (previously
loaded handles strictly sorted by name) and the shape of a filtered directory
listing (strictly sorted basenames, all below the sentinel). -/
theorem C1_registry_reload_merge_diff (load : String → Plugin)
    (prev : List Plugin) (files : List String)
    (hfiles : files.Pairwise (· < ·))
    (hprev : (prev.map Plugin.name).Pairwise (· < ·))
    (hsent : ∀ f ∈ files, f < "~") :
    TorrentEngine.reload_plugins load prev (some files)
      = files.map (fun f =>
          (prev.find? (fun p => p.name == f)).getD (load f)) :=
  mergeWalk_merge_diff load files prev hfiles hprev hsent

/-- C1 witness: loaded handles a, b, c (module identities 0, 1, 2) and
directory listing a, c, d reload to a and c unchanged (same identities), b
absent, and d freshly loaded by the loader (identity 10). -/
theorem C1_witness :
    TorrentEngine.reload_plugins (fun n => ⟨n, 10⟩)
        [⟨"a", 0⟩, ⟨"b", 1⟩, ⟨"c", 2⟩] (some ["a", "c", "d"])
      = [⟨"a", 0⟩, ⟨"c", 2⟩, ⟨"d", 10⟩] := by
  rw [C1_registry_reload_merge_diff (fun n => ⟨n, 10⟩)
      [⟨"a", 0⟩, ⟨"b", 1⟩, ⟨"c", 2⟩] ["a", "c", "d"]
      (by simp only [List.pairwise_cons, List.mem_cons, List.not_mem_nil,
            or_false, forall_eq_or_imp, forall_eq, List.Pairwise.nil, and_true,
            false_implies, implies_true, String.lt_iff_toList_lt]
          decide)
      (by simp only [List.map_cons, List.map_nil, List.pairwise_cons,
            List.mem_cons, List.not_mem_nil, or_false, forall_eq_or_imp,
            forall_eq, List.Pairwise.nil, and_true, false_implies,
            implies_true, String.lt_iff_toList_lt]
          decide)
      (by simp only [List.mem_cons, List.not_mem_nil, or_false,
            forall_eq_or_imp, forall_eq, String.lt_iff_toList_lt]
          decide)]
  rfl

theorem filter_from_attr_sublist (l : List Torrent) (comp : Option (List String))
    (attr : Torrent → Option String) (d : List (String × (String → Bool))) :
    (TorrentEngine.filter_from_attr l comp attr d).Sublist l := by
  cases comp with
  | none => exact List.Sublist.refl l
  | some fl => exact List.filter_sublist l

theorem mem_filter_from_attr {l : List Torrent} {comp : Option (List String)}
    {attr : Torrent → Option String} {d : List (String × (String → Bool))}
    {t : Torrent} (h : t ∈ TorrentEngine.filter_from_attr l comp attr d) :
    t ∈ l ∧ compOk comp d (attr t) := by
  cases comp with
  | none => exact ⟨h, fun fl hfl => nomatch hfl⟩
  | some fl =>
      rw [TorrentEngine.filter_from_attr] at h
      have h' := List.mem_filter.mp h
      refine ⟨h'.1, ?_⟩
      intro fl' hfl'
      injection hfl' with hfl'
      subst hfl'
      have hpass := h'.2
      cases hv : attr t with
      | none => exact Or.inl rfl
      | some s =>
          rw [hv] at hpass
          rcases List.any_eq_true.mp hpass with ⟨f, hf, hm⟩
          exact Or.inr ⟨s, rfl, f, hf, hm⟩

/-- C5: the filter is a sublist of its input, every listing in the output
satisfies every non-absent component of the filter tuple (attribute absent or
matched by one of the accepted values, and for the 3-D component not flagged
3-D or 3D accepted), and the absent filter tuple is the identity. -/
theorem C5_filter_conjunction_identity (L : List Torrent)
    (F : Option FilterTuple) :
    (TorrentEngine.filterTorrents L F).Sublist L
    ∧ TorrentEngine.filterTorrents L none = L
    ∧ (∀ q c r d3, F = some (q, c, r, d3) →
        ∀ t ∈ TorrentEngine.filterTorrents L F,
          compOk q TorrentEngine.FILTER_QUALITY t.name_info.quality
          ∧ compOk c TorrentEngine.FILTER_CODEC t.name_info.codec
          ∧ compOk r TorrentEngine.FILTER_RESOLUTION t.name_info.resolution
          ∧ (∀ dl, d3 = some dl →
              t.name_info.is3d = false ∨ "3D" ∈ dl)) := by
  refine ⟨?_, rfl, ?_⟩
  · cases F with
    | none => exact List.Sublist.refl L
    | some ft =>
        obtain ⟨q, c, r, d3⟩ := ft
        simp only [TorrentEngine.filterTorrents]
        refine List.Sublist.trans (List.filter_sublist _) ?_
        refine List.Sublist.trans (filter_from_attr_sublist _ _ _ _) ?_
        refine List.Sublist.trans (filter_from_attr_sublist _ _ _ _) ?_
        exact filter_from_attr_sublist _ _ _ _
  · rintro q c r d3 rfl t ht
    simp only [TorrentEngine.filterTorrents] at ht
    have h3 := List.mem_filter.mp ht
    have h2 := mem_filter_from_attr h3.1
    have h1 := mem_filter_from_attr h2.1
    have h0 := mem_filter_from_attr h1.1
    refine ⟨h0.2, h1.2, h2.2, ?_⟩
    rintro dl rfl
    have hb := h3.2
    rw [Bool.or_eq_true] at hb
    rcases hb with hleft | hright
    · left
      simpa using hleft
    · right
      simpa using hright

/-- C5 witness: the three parts of the filter law at a concrete listing list
and a concrete filter tuple accepting only Blu-ray quality. -/
theorem C5_witness :
    TorrentEngine.filterTorrents [demoBluray] none = [demoBluray]
    ∧ (TorrentEngine.filterTorrents [demoBluray]
        (some (some ["Blu-ray"], none, none, none))).Sublist [demoBluray]
    ∧ compOk (some ["Blu-ray"]) TorrentEngine.FILTER_QUALITY
        demoBluray.name_info.quality :=
  ⟨(C5_filter_conjunction_identity [demoBluray] none).2.1,
   (C5_filter_conjunction_identity [demoBluray]
      (some (some ["Blu-ray"], none, none, none))).1,
   ((C5_filter_conjunction_identity [demoBluray]
      (some (some ["Blu-ray"], none, none, none))).2.2
      (some ["Blu-ray"]) none none none rfl demoBluray (by decide)).1⟩

/-- C6 counterexample: with the non-absent but empty accepted-quality list,
the inner loop of the source never breaks, so even a listing with no quality
field is dropped: the claim fails for the empty accepted-value list. -/
theorem C6_counterexample :
    demoNoQuality.name_info.quality = none
    ∧ demoNoQuality ∉ TorrentEngine.filterTorrents [demoNoQuality]
        (some (some [], none, none, none)) := by
  exact ⟨rfl, by decide⟩

/-- C6 (amended): for every torrent list and every non-absent and non-empty
accepted-value list, every listing lacking the tested attribute passes the
attribute filter; and the scenario holds: filtering with quality Blu-ray over
listings with quality BluRay, quality WEBRip and no quality field keeps
exactly the BluRay listing and the no-quality listing. -/
theorem C6_missing_attribute_passes (L : List Torrent) (fl : List String)
    (attr : Torrent → Option String) (d : List (String × (String → Bool)))
    (hfl : fl ≠ []) :
    (∀ t ∈ L, attr t = none →
        t ∈ TorrentEngine.filter_from_attr L (some fl) attr d)
    ∧ TorrentEngine.filterTorrents [demoBluray, demoWebrip, demoNoQuality]
        (some (some ["Blu-ray"], none, none, none))
      = [demoBluray, demoNoQuality] := by
  constructor
  · intro t ht hnone
    rw [TorrentEngine.filter_from_attr]
    apply List.mem_filter.mpr
    refine ⟨ht, ?_⟩
    apply List.any_eq_true.mpr
    obtain ⟨f, hf⟩ := List.exists_mem_of_ne_nil fl hfl
    refine ⟨f, hf, ?_⟩
    rw [hnone]
  · rfl

/-- C6 witness: the amended theorem at the singleton accepted list Blu-ray
and a listing with no quality field. -/
theorem C6_witness :
    demoNoQuality ∈ TorrentEngine.filter_from_attr [demoNoQuality]
      (some ["Blu-ray"]) (fun t => t.name_info.quality)
      TorrentEngine.FILTER_QUALITY :=
  (C6_missing_attribute_passes [demoNoQuality] ["Blu-ray"]
      (fun t => t.name_info.quality) TorrentEngine.FILTER_QUALITY
      (by decide)).1
    demoNoQuality (by decide) rfl

theorem mem_insertSeeders {t y : Torrent} {l : List Torrent} :
    y ∈ insertSeeders t l ↔ y = t ∨ y ∈ l := by
  induction l with
  | nil => simp [insertSeeders]
  | cons x xs ih =>
      rw [insertSeeders]
      split
      · simp [List.mem_cons]
      · simp only [List.mem_cons, ih]
        tauto

theorem pairwise_insertSeeders {t : Torrent} {l : List Torrent}
    (h : l.Pairwise (fun a b => b.seeders ≤ a.seeders)) :
    (insertSeeders t l).Pairwise (fun a b => b.seeders ≤ a.seeders) := by
  induction l with
  | nil => simp [insertSeeders]
  | cons x xs ih =>
      rw [List.pairwise_cons] at h
      rw [insertSeeders]
      split
      · rename_i hle
        rw [List.pairwise_cons]
        constructor
        · intro y hy
          rcases List.mem_cons.mp hy with rfl | hy'
          · exact hle
          · exact le_trans (h.1 y hy') hle
        · exact List.pairwise_cons.mpr h
      · rename_i hnle
        rw [List.pairwise_cons]
        constructor
        · intro y hy
          rcases mem_insertSeeders.mp hy with rfl | hy'
          · exact le_of_not_le hnle
          · exact h.1 y hy'
        · exact ih h.2

theorem filter_insertSeeders (s : Nat) (t : Torrent) (l : List Torrent)
    (hl : l.Pairwise (fun a b => b.seeders ≤ a.seeders)) :
    (insertSeeders t l).filter (fun x => x.seeders == s)
      = if t.seeders == s then t :: l.filter (fun x => x.seeders == s)
        else l.filter (fun x => x.seeders == s) := by
  induction l with
  | nil =>
      rw [insertSeeders]
      by_cases hp : (t.seeders == s) = true
      · simp [List.filter_cons, hp]
      · simp [List.filter_cons, hp]
  | cons x xs ih =>
      rw [List.pairwise_cons] at hl
      rw [insertSeeders]
      split
      · rename_i hle
        rw [List.filter_cons]
      · rename_i hnle
        rw [List.filter_cons, ih hl.2]
        by_cases hpt : (t.seeders == s) = true
        · have hx : t.seeders < x.seeders := lt_of_not_le hnle
          have hpx : (x.seeders == s) = false := by
            rw [beq_eq_false_iff_ne]
            rw [beq_iff_eq] at hpt
            omega
          simp [List.filter_cons, hpt, hpx]
        · simp [List.filter_cons, hpt]

theorem sortBySeedersDesc_pairwise (l : List Torrent) :
    (sortBySeedersDesc l).Pairwise (fun a b => b.seeders ≤ a.seeders) := by
  induction l with
  | nil => simp [sortBySeedersDesc]
  | cons t ts ih =>
      rw [sortBySeedersDesc]
      exact pairwise_insertSeeders ih

theorem insertSeeders_perm (t : Torrent) (l : List Torrent) :
    (insertSeeders t l).Perm (t :: l) := by
  induction l with
  | nil => exact List.Perm.refl _
  | cons x xs ih =>
      rw [insertSeeders]
      split
      · exact List.Perm.refl _
      · exact (List.Perm.cons x ih).trans (List.Perm.swap t x xs)

theorem sortBySeedersDesc_perm (l : List Torrent) :
    (sortBySeedersDesc l).Perm l := by
  induction l with
  | nil => exact List.Perm.refl _
  | cons t ts ih =>
      rw [sortBySeedersDesc]
      exact (insertSeeders_perm t _).trans (List.Perm.cons t ih)

theorem sortBySeedersDesc_filter (s : Nat) (l : List Torrent) :
    (sortBySeedersDesc l).filter (fun x => x.seeders == s)
      = l.filter (fun x => x.seeders == s) := by
  induction l with
  | nil => rfl
  | cons t ts ih =>
      rw [sortBySeedersDesc,
        filter_insertSeeders s t _ (sortBySeedersDesc_pairwise ts), ih,
        List.filter_cons]

/-- C7: the aggregated top list is sorted descending by seeder count, it is a
reordering of the filtered snapshot in which listings with equal seeder
counts keep their merge order, and a raising provider never propagates: with
one provider raising and another returning listings with seeders 5, 50, 1,
top returns exactly those three listings in the order 50, 5, 1 (the provider
exception is absorbed by the wrapper, which is a total function into an
optional result). -/
theorem C7_top_sorted_failures_isolated (torrents : List Torrent)
    (filters : Option FilterTuple) :
    (TorrentEngine.top torrents filters).Pairwise
        (fun a b => b.seeders ≤ a.seeders)
    ∧ (TorrentEngine.top torrents filters).Perm
        (TorrentEngine.filterTorrents torrents filters)
    ∧ (∀ s : Nat,
        (TorrentEngine.top torrents filters).filter (fun x => x.seeders == s)
          = (TorrentEngine.filterTorrents torrents filters).filter
              (fun x => x.seeders == s))
    ∧ TorrentEngine.top
        (TorrentEngine.fetch_top_merge
          [Except.error "provider failure",
           Except.ok [demoSeed5, demoSeed50, demoSeed1]]) none
      = [demoSeed50, demoSeed5, demoSeed1] :=
  ⟨sortBySeedersDesc_pairwise _, sortBySeedersDesc_perm _,
   fun s => sortBySeedersDesc_filter s _, rfl⟩

theorem dedupeMedias_eq_foldl (medias : List (Option Media))
    (acc : List Media) :
    medias.foldl (fun acc m =>
        match m with
        | none => acc
        | some m => dedupeStep acc m) acc
      = (medias.filterMap id).foldl dedupeStep acc := by
  induction medias generalizing acc with
  | nil => rfl
  | cons m ms ih =>
      cases m with
      | none => simp [List.filterMap_cons, ih]
      | some m => simp [List.filterMap_cons, ih]

theorem mem_dedupe_foldl (l : List Media) :
    ∀ (acc : List Media) (m : Media),
      m ∈ l.foldl dedupeStep acc ↔ m ∈ acc ∨ m ∈ l := by
  induction l with
  | nil =>
      intro acc m
      simp
  | cons x xs ih =>
      intro acc m
      rw [List.foldl_cons, ih]
      by_cases hx : x ∈ acc
      · rw [dedupeStep, if_pos hx]
        simp only [List.mem_cons]
        constructor
        · tauto
        · rintro (h | rfl | h)
          · exact Or.inl h
          · exact Or.inl hx
          · exact Or.inr h
      · rw [dedupeStep, if_neg hx]
        simp only [List.mem_append, List.mem_singleton, List.mem_cons]
        tauto

theorem nodup_dedupe_foldl (l : List Media) :
    ∀ acc : List Media, acc.Nodup → (l.foldl dedupeStep acc).Nodup := by
  induction l with
  | nil => intro acc h; exact h
  | cons x xs ih =>
      intro acc hacc
      rw [List.foldl_cons]
      apply ih
      rw [dedupeStep]
      split
      · exact hacc
      · rename_i hx
        rw [List.nodup_append]
        refine ⟨hacc, List.nodup_singleton x, ?_⟩
        intro a ha hmem
        exact hx (by rwa [List.mem_singleton.mp hmem] at ha)

theorem pairwise_dedupe_foldl (raw : List Media) :
    ∀ (suf pre acc : List Media),
      raw = pre ++ suf →
      (∀ m, m ∈ acc ↔ m ∈ pre) →
      acc.Pairwise (fun a b => raw.indexOf a < raw.indexOf b) →
      (suf.foldl dedupeStep acc).Pairwise
        (fun a b => raw.indexOf a < raw.indexOf b) := by
  intro suf
  induction suf with
  | nil =>
      intro pre acc _ _ hpw
      exact hpw
  | cons x suf ih =>
      intro pre acc hraw hmem hpw
      rw [List.foldl_cons]
      by_cases hx : x ∈ acc
      · rw [dedupeStep, if_pos hx]
        apply ih (pre ++ [x]) acc
        · rw [hraw, List.append_assoc]
          rfl
        · intro m
          rw [hmem, List.mem_append, List.mem_singleton]
          constructor
          · exact Or.inl
          · rintro (h | he)
            · exact h
            · rw [he]
              exact (hmem x).mp hx
        · exact hpw
      · rw [dedupeStep, if_neg hx]
        apply ih (pre ++ [x]) (acc ++ [x])
        · rw [hraw, List.append_assoc]
          rfl
        · intro m
          rw [List.mem_append, List.mem_append, hmem]
        · rw [List.pairwise_append]
          refine ⟨hpw, List.pairwise_singleton _ _, ?_⟩
          intro a ha b hb
          rw [List.mem_singleton.mp hb]
          have hapre : a ∈ pre := (hmem a).mp ha
          have hxpre : x ∉ pre := fun hc => hx ((hmem x).mpr hc)
          have h1 : raw.indexOf a < pre.length := by
            rw [hraw, List.indexOf_append_of_mem hapre]
            exact List.indexOf_lt_length.mpr hapre
          have h2 : pre.length ≤ raw.indexOf x := by
            rw [hraw, List.indexOf_append_of_not_mem hxpre]
            exact Nat.le_add_right _ _
          omega

/-- C10: the media list built from resolved torrents has no null entries (the
construction drops them), no duplicate medias under the media equality of the
source (same catalog id, and for episodes also same season and episode), and
it lists the medias in the order of their first occurrence in the input
torrent order (it is sorted by first-occurrence index in the non-null media
occurrence list). -/
theorem C10_media_list_nodup_first_order (st : TitlesDBState)
    (store : List (String × IMDBTitle)) (torrents : List Torrent) :
    (TitlesDB.get_medias_from_torrents st store torrents).Nodup
    ∧ (∀ m, m ∈ TitlesDB.get_medias_from_torrents st store torrents
          ↔ m ∈ TitlesDB.collectedMedias st store torrents)
    ∧ (TitlesDB.get_medias_from_torrents st store torrents).Pairwise
        (fun a b => (TitlesDB.collectedMedias st store torrents).indexOf a
          < (TitlesDB.collectedMedias st store torrents).indexOf b) := by
  have heq : TitlesDB.get_medias_from_torrents st store torrents
      = (TitlesDB.collectedMedias st store torrents).foldl dedupeStep [] := by
    rw [TitlesDB.get_medias_from_torrents, dedupeMedias,
      dedupeMedias_eq_foldl]
    rfl
  refine ⟨?_, ?_, ?_⟩
  · rw [heq]
    exact nodup_dedupe_foldl _ [] List.nodup_nil
  · intro m
    rw [heq, mem_dedupe_foldl]
    simp
  · rw [heq]
    exact pairwise_dedupe_foldl _ _ [] [] rfl (by simp) List.Pairwise.nil
